import Mathlib

/-!
Verification of the `edg` crate (`src/lib.rs`): an out-of-process
compile-time-evaluation proc macro.  The Rust source is shallowly embedded:
the effectful pipeline `r` becomes a pure function from an environment
describing the outcomes of its external effects (current dir, argv, parse
result, file write, `rustc` run, auxiliary binary run) to an event trace plus
a result; `filter_rustc_args` and `merge_externs` become list functions;
`DefaultHasher` (SipHash-1-3 with zero keys, as in Rust's std) is modelled
bit-faithfully on `Nat` with explicit wrap-around at `2 ^ 64`.
-/

set_option autoImplicit false

namespace Edg

/-! ## SipHash-1-3 model of `std::collections::hash_map::DefaultHasher`

`DefaultHasher::new()` is `SipHasher13::new_with_keys(0, 0)`; hashing a `str`
feeds its UTF-8 bytes followed by a single `0xff` byte (Rust's
`Hash for str`).  64-bit words are `Nat`s kept below `2 ^ 64`. -/

def wrap64 (n : Nat) : Nat := n % 2 ^ 64

def rotl64 (x b : Nat) : Nat := ((x <<< b) ||| (x >>> (64 - b))) % 2 ^ 64

structure SipState where
  v0 : Nat
  v1 : Nat
  v2 : Nat
  v3 : Nat

/-- One SipHash round (`compress!` in Rust's `sip.rs`). -/
def sipRound (s : SipState) : SipState :=
  let v0 := wrap64 (s.v0 + s.v1)
  let v1 := rotl64 s.v1 13
  let v1 := v1 ^^^ v0
  let v0 := rotl64 v0 32
  let v2 := wrap64 (s.v2 + s.v3)
  let v3 := rotl64 s.v3 16
  let v3 := v3 ^^^ v2
  let v0 := wrap64 (v0 + v3)
  let v3 := rotl64 v3 21
  let v3 := v3 ^^^ v0
  let v2 := wrap64 (v2 + v1)
  let v1 := rotl64 v1 17
  let v1 := v1 ^^^ v2
  let v2 := rotl64 v2 32
  ⟨v0, v1, v2, v3⟩

/-- Little-endian interpretation of up to eight bytes as a 64-bit word. -/
def leWord (bytes : List Nat) : Nat :=
  bytes.foldr (fun b acc => acc * 256 + b % 256) 0

/-- Feed one full message word: `v3 ^= m`, one round (`c_rounds` of
SipHash-1-3), `v0 ^= m`. -/
def sipCompress (s : SipState) (m : Nat) : SipState :=
  let s := { s with v3 := s.v3 ^^^ m }
  let s := sipRound s
  { s with v0 := s.v0 ^^^ m }

/-- Split a byte stream into full 8-byte little-endian words plus the tail. -/
def sipChunks : List Nat → List Nat × List Nat
  | b0 :: b1 :: b2 :: b3 :: b4 :: b5 :: b6 :: b7 :: rest =>
    let (ws, tail) := sipChunks rest
    (leWord [b0, b1, b2, b3, b4, b5, b6, b7] :: ws, tail)
  | rest => ([], rest)

/-- SipHash-1-3 with keys `(0, 0)` over a byte stream, exactly the algorithm
of `SipHasher13` in Rust's std (`c_rounds` = 1, `d_rounds` = 3). -/
def sipHash13 (bytes : List Nat) : Nat :=
  let s0 : SipState :=
    ⟨0x736f6d6570736575, 0x646f72616e646f6d, 0x6c7967656e657261, 0x7465646279746573⟩
  let (words, tail) := sipChunks bytes
  let s := words.foldl sipCompress s0
  let b := wrap64 ((bytes.length % 256) * 2 ^ 56 + leWord tail)
  let s := sipCompress s b
  let s := { s with v2 := s.v2 ^^^ 0xff }
  let s := sipRound (sipRound (sipRound s))
  wrap64 (s.v0 ^^^ s.v1 ^^^ s.v2 ^^^ s.v3)

/-- UTF-8 bytes of a string, as `Nat`s. -/
def strBytes (s : String) : List Nat :=
  s.toUTF8.toList.map UInt8.toNat

/-- `DefaultHasher` applied to a `String` as in `code.hash(&mut hasher);
hasher.finish()` (lib.rs lines 107-109): the UTF-8 bytes followed by the
`0xff` terminator that `Hash for str` writes. -/
def defaultHashStr (s : String) : Nat :=
  sipHash13 (strBytes s ++ [0xff])

/-! ## Scratch-directory mutex (`lock` / `unlock`, lib.rs lines 52-73)

`lock` loops on `OpenOptions::..create_new(true).open(dir.join("lock"))`.
The loop is driven by the sequence of outcomes the filesystem returns for
the successive creation attempts. -/

inductive CreateResult where
  | ok
  | alreadyExists
  | otherErr
  deriving DecidableEq

inductive LockOutcome where
  | acquired
  /-- `panic!("unable to create lock")` -/
  | fatal
  /-- the schedule ran out while the loop was still spinning -/
  | spinning
  deriving DecidableEq

/-- `lock` (lib.rs lines 52-69) run against a finite schedule of
create-if-absent outcomes. -/
def lockRun : List CreateResult → LockOutcome
  | [] => .spinning
  | .ok :: _ => .acquired
  | .alreadyExists :: rest => lockRun rest
  | .otherErr :: _ => .fatal

inductive UnlockOutcome where
  | done
  /-- `.expect("unable to unlock")` -/
  | fatal
  deriving DecidableEq

/-- `unlock` (lib.rs lines 71-73): `remove_file(dir.join("lock"))` with
`expect`; the argument tells whether the removal succeeded. -/
def unlockRun (removeSucceeded : Bool) : UnlockOutcome :=
  if removeSucceeded then .done else .fatal

/-! ## Argument translator (`filter_rustc_args`, lib.rs lines 177-201) -/

/-- Rust's `str::ends_with` on a string pattern, modelled over the
character list. -/
def strEndsWith (s pat : String) : Bool := pat.data.isSuffixOf s.data

/-- Rust's `str::starts_with` on a string pattern, modelled over the
character list. -/
def strStartsWith (s pat : String) : Bool := pat.data.isPrefixOf s.data

/-- The `for arg in args` loop of `filter_rustc_args` with its mutable
`skip` flag, as a structural recursion.  Branch order follows the source:
the `"-"` check precedes the `skip` check. -/
def filterRustcArgsGo : Bool → List String → List String
  | _, [] => []
  | skip, arg :: rest =>
    if arg = "-" then
      filterRustcArgsGo skip rest
    else if skip then
      filterRustcArgsGo false rest
    else if arg = "--crate-type" ∨ arg = "--crate-name" ∨ arg = "--extern" ∨ arg = "-o" then
      filterRustcArgsGo true rest
    else if strEndsWith arg ".rs" ∨ arg = "--test" ∨ arg = "rustc" ∨ strStartsWith arg "--emit" then
      filterRustcArgsGo skip rest
    else
      arg :: filterRustcArgsGo skip rest

/-- `filter_rustc_args` (lib.rs lines 177-201); `skip` starts `true`, which
drops the leading positional argument. -/
def filter_rustc_args (args : List String) : List String :=
  filterRustcArgsGo true args

/-! ## Extern extraction (`merge_externs`, lib.rs lines 203-218) -/

/-- The loop of `merge_externs` with its `found` flag; the guarded first
match arm (`arg if found`) takes priority over the `"--extern"` arm. -/
def mergeExternsGo : Bool → List String → List String
  | _, [] => []
  | true, a :: rest => "--extern" :: a :: mergeExternsGo false rest
  | false, a :: rest =>
    if a = "--extern" then mergeExternsGo true rest else mergeExternsGo false rest

/-- `merge_externs` (lib.rs lines 203-218). -/
def merge_externs (args : List String) : List String :=
  mergeExternsGo false args

/-! ## Program synthesizer (the `format!` template, lib.rs lines 112-125) -/

/-- The synthesized auxiliary program text, byte-for-byte the `format!`
template of lib.rs lines 115-123 with `{}` replaced by the declared type
tokens and `{code}` by the body tokens. -/
def synthesize (ty code : String) : String :=
  "fn main() \x7b\n                    let res: " ++ ty ++ " = \n" ++ code ++
    "\n; // surely nobody will main()\n                    let ser = serde_json::to_string(&res).expect(\"serialization failed\");\n                    print!(\"\x7bser\x7d\");\n                \x7d"

/-! ## The `r` proc macro pipeline (lib.rs lines 86-175) -/

/-- `Path::join` with a relative component. -/
def pathJoin (dir name : String) : String := dir ++ ("/" ++ name)

/-- `std::env::current_dir().map_or("/tmp".into(), |p| p.join("target"))`
(lib.rs line 87). -/
def outDirOf : Option String → String
  | some p => pathJoin p "target"
  | none => "/tmp"

/-- `format!("edg-{hash}.rs")` with the `DefaultHasher` hash of the body
token text (lib.rs lines 106-111). -/
def stagedFileName (code : String) : String :=
  "edg-" ++ toString (defaultHashStr code) ++ ".rs"

/-- The `extra-filename=` extraction (lib.rs lines 145-149):
`args.iter().find(starts_with).map(|ef| ef.split('=').nth(1).unwrap()).unwrap_or_default()`. -/
def extraFilenameOf (args : List String) : String :=
  match args.find? (fun a => strStartsWith a "extra-filename=") with
  | some ef => (ef.splitOn "=").getD 1 ""
  | none => ""

/-- The parsed `ExprClosure`, reduced to the two pieces `r` uses:
`input.output` (the declared return type, absent for `ReturnType::Default`)
and `input.body` rendered as token text. -/
structure ExprClosureM where
  output : Option String
  body : String
  deriving DecidableEq

/-- Outcomes of the external effects one invocation of `r` performs.
`rustcRun = none` models `Command::output()` failing to spawn; otherwise the
triple is (status.success(), stdout, stderr), both streams taken as text
(the source `unwrap`s compiler output from UTF-8).  For the auxiliary binary
the stdout is `none` when the captured bytes are not valid UTF-8. -/
structure MacroEnv where
  currentDir : Option String
  args : List String
  parsed : Option ExprClosureM
  writeOk : Bool
  rustcRun : Option (Bool × String × String)
  binRun : Option (Bool × Option String × String)
  deriving DecidableEq

/-- Observable filesystem / process events of one invocation, in order. -/
inductive Ev where
  | lockAcq (path : String)
  | unlockEv (path : String)
  | fileWrite (path content : String)
  | rustcInvoke (cmdArgs : List String)
  | binInvoke (path : String)
  | fileRemove (path : String)
  deriving DecidableEq

/-- How the macro expansion ends.  `success ty json` stands for the spliced
`::serde_json::from_str::<ty>(json).expect(..)` tokens; `compileErr msg` for
the `compile_error!(msg)` tokens the `err!` macro emits; `parseErr` for the
error tokens `syn::parse_macro_input!` returns; `panicked` for a proc-macro
panic via `expect`/`panic!`. -/
inductive RRes where
  | success (ty json : String)
  | compileErr (msg : String)
  | parseErr
  | panicked (msg : String)
  deriving DecidableEq

/-- The full `rustc` argument list assembled in lib.rs lines 127-133. -/
def rustcArgsOf (args : List String) (outDir file : String) : List String :=
  filter_rustc_args args ++
    ["--crate-name", "edg_bin", "--crate-type", "bin", "--out-dir", outDir] ++
    merge_externs args ++ [file]

/-- The `r` proc macro (lib.rs lines 86-175) as a trace/result function of
the external-effect outcomes.  Event order follows the source: lock, parse,
return-type check, staged write, `rustc`, auxiliary binary, UTF-8 check,
removals, unlock.  The passthrough `print!` of the compiler's streams
(lines 142-143) produces no modelled event. -/
def runR (env : MacroEnv) : List Ev × RRes :=
  let outDir := outDirOf env.currentDir
  let lockPath := pathJoin outDir "lock"
  match env.parsed with
  | none => ([.lockAcq lockPath], .parseErr)
  | some input =>
    match input.output with
    | none =>
      ([.lockAcq lockPath, .unlockEv lockPath], .compileErr "specify return type of closure")
    | some ty =>
      let code := input.body
      let file := pathJoin outDir (stagedFileName code)
      if env.writeOk then
        let ev0 := [Ev.lockAcq lockPath, Ev.fileWrite file (synthesize ty code)]
        let rargs := rustcArgsOf env.args outDir file
        match env.rustcRun with
        | none => (ev0 ++ [.rustcInvoke rargs], .panicked "could not invoke rustc")
        | some (ok, _rout, rerr) =>
          if ok then
            let extra := extraFilenameOf env.args
            let outBin := pathJoin outDir ("edg_bin" ++ extra)
            match env.binRun with
            | none =>
              (ev0 ++ [.rustcInvoke rargs, .binInvoke outBin],
                .panicked "could not invoke edg_bin")
            | some (bok, bstdout, berr) =>
              if bok then
                match bstdout with
                | none =>
                  (ev0 ++ [.rustcInvoke rargs, .binInvoke outBin, .unlockEv lockPath],
                    .compileErr "comptime expr output was not utf8")
                | some output =>
                  (ev0 ++ [.rustcInvoke rargs, .binInvoke outBin, .fileRemove file,
                      .fileRemove outBin, .unlockEv lockPath],
                    .success ty output)
              else
                (ev0 ++ [.rustcInvoke rargs, .binInvoke outBin, .unlockEv lockPath],
                  .compileErr ("could not run comptime expr:\n\n" ++ berr ++ "\n"))
          else
            (ev0 ++ [.rustcInvoke rargs, .unlockEv lockPath],
              .compileErr ("could not compile comptime expr:\n\n" ++ rerr ++ "\n"))
      else
        ([.lockAcq lockPath], .panicked "could not write file")

/-! ## Trace helpers -/

def isUnlock : Ev → Bool
  | .unlockEv _ => true
  | _ => false

def isBinInvoke : Ev → Bool
  | .binInvoke _ => true
  | _ => false

def isRemoveEv : Ev → Bool
  | .fileRemove _ => true
  | _ => false

def unlockCount (l : List Ev) : Nat := (l.filter isUnlock).length

def isSuccess : RRes → Bool
  | .success _ _ => true
  | _ => false

/-- Paths where the macro succeeded or emitted a `compile_error!`
diagnostic (as opposed to parse-error tokens or a panic). -/
def isDiagOrSuccess : RRes → Bool
  | .success _ _ => true
  | .compileErr _ => true
  | _ => false

/-- The filesystem path an event touches, when it touches one. -/
def evPath : Ev → Option String
  | .lockAcq p => some p
  | .unlockEv p => some p
  | .fileWrite p _ => some p
  | .fileRemove p => some p
  | .binInvoke p => some p
  | .rustcInvoke _ => none

/-- The argument categories `filter_rustc_args` removes: bare `-`, the
flags whose value is consumed (`--crate-type`, `--crate-name`, `--extern`,
`-o`), arguments naming a `.rs` source file, `--test`, literal `rustc`, and
`--emit`-prefixed flags. -/
def DroppedArg (a : String) : Prop :=
  a = "-" ∨ a = "--crate-type" ∨ a = "--crate-name" ∨ a = "--extern" ∨ a = "-o" ∨
    strEndsWith a ".rs" = true ∨ a = "--test" ∨ a = "rustc" ∨ strStartsWith a "--emit" = true

instance (a : String) : Decidable (DroppedArg a) := by
  unfold DroppedArg; infer_instance

/-- The `(--extern, value)` pairs present in an argument list, in order of
occurrence: whenever `--extern` is followed by a value, that pair is
collected and scanning resumes after the value. -/
def externPairs : List String → List (String × String)
  | a :: v :: rest =>
    if a = "--extern" then ("--extern", v) :: externPairs rest else externPairs (v :: rest)
  | _ => []

/-- Specification of the extern extraction: exactly the extern pairs of the
input, re-emitted verbatim as flag/value flags, and nothing else. -/
def externFlagsSpec (args : List String) : List String :=
  (externPairs args).flatMap fun p => [p.1, p.2]

/-! ## Helper lemmas -/

theorem neMsgCompile (s : String) :
    "comptime expr output was not utf8" ≠ "could not compile comptime expr:\n\n" ++ s ++ "\n" := by
  intro h
  have hd := congrArg (fun t => t.data[2]?) h
  simp only [String.data_append, List.append_assoc] at hd
  rw [List.getElem?_append_left
    (by decide : 2 < ("could not compile comptime expr:\n\n".data).length)] at hd
  exact absurd hd (by decide)

theorem neMsgRun (s : String) :
    "comptime expr output was not utf8" ≠ "could not run comptime expr:\n\n" ++ s ++ "\n" := by
  intro h
  have hd := congrArg (fun t => t.data[2]?) h
  simp only [String.data_append, List.append_assoc] at hd
  rw [List.getElem?_append_left
    (by decide : 2 < ("could not run comptime expr:\n\n".data).length)] at hd
  exact absurd hd (by decide)

/-- Whenever the invocation parses, has a declared type and the staged write
succeeds, the staged-file write event occurs, at the body-hash-derived path
and with the synthesized program text, whatever the later stages do. -/
theorem fileWriteMem (cd : Option String) (args : List String) (ty body : String)
    (rr : Option (Bool × String × String)) (br : Option (Bool × Option String × String)) :
    Ev.fileWrite (pathJoin (outDirOf cd) (stagedFileName body)) (synthesize ty body)
      ∈ (runR ⟨cd, args, some ⟨some ty, body⟩, true, rr, br⟩).1 := by
  rcases rr with _ | ⟨ok, rout, rerr⟩
  · simp [runR]
  · cases ok
    · simp [runR]
    · rcases br with _ | ⟨bok, bso, berr⟩
      · simp [runR]
      · cases bok
        · simp [runR]
        · rcases bso with _ | outp <;> simp [runR]

theorem filterGoSublist (skip : Bool) (args : List String) :
    (filterRustcArgsGo skip args).Sublist args := by
  induction args generalizing skip with
  | nil => simp [filterRustcArgsGo]
  | cons a rest ih =>
    simp only [filterRustcArgsGo]
    by_cases h1 : a = "-"
    · rw [if_pos h1]; exact (ih skip).cons a
    · rw [if_neg h1]
      by_cases hs : skip = true
      · rw [if_pos hs]; exact (ih false).cons a
      · rw [if_neg hs]
        by_cases h3 : a = "--crate-type" ∨ a = "--crate-name" ∨ a = "--extern" ∨ a = "-o"
        · rw [if_pos h3]; exact (ih true).cons a
        · rw [if_neg h3]
          by_cases h4 : strEndsWith a ".rs" = true ∨ a = "--test" ∨ a = "rustc" ∨
              strStartsWith a "--emit" = true
          · rw [if_pos h4]; exact (ih skip).cons a
          · rw [if_neg h4]; exact (ih skip).cons₂ a

theorem filterGoNotDropped (skip : Bool) (args : List String) :
    ∀ a ∈ filterRustcArgsGo skip args, ¬ DroppedArg a := by
  induction args generalizing skip with
  | nil => simp [filterRustcArgsGo]
  | cons a rest ih =>
    simp only [filterRustcArgsGo]
    by_cases h1 : a = "-"
    · rw [if_pos h1]; exact ih skip
    · rw [if_neg h1]
      by_cases hs : skip = true
      · rw [if_pos hs]; exact ih false
      · rw [if_neg hs]
        by_cases h3 : a = "--crate-type" ∨ a = "--crate-name" ∨ a = "--extern" ∨ a = "-o"
        · rw [if_pos h3]; exact ih true
        · rw [if_neg h3]
          by_cases h4 : strEndsWith a ".rs" = true ∨ a = "--test" ∨ a = "rustc" ∨
              strStartsWith a "--emit" = true
          · rw [if_pos h4]; exact ih skip
          · rw [if_neg h4]
            intro b hb
            rcases List.mem_cons.mp hb with rfl | hb
            · simp only [DroppedArg]
              push_neg
              push_neg at h3 h4
              exact ⟨h1, h3.1, h3.2.1, h3.2.2.1, h3.2.2.2, h4.1, h4.2.1, h4.2.2.1, h4.2.2.2⟩
            · exact ih skip b hb

theorem filterGoCleanId (args : List String) :
    (∀ a ∈ args, ¬ DroppedArg a) → filterRustcArgsGo false args = args := by
  induction args with
  | nil => intro _; rfl
  | cons a rest ih =>
    intro h
    have ha := h a (List.mem_cons_self a rest)
    simp only [DroppedArg, not_or] at ha
    obtain ⟨h1, h2, h3, h4, h5, h6, h7, h8, h9⟩ := ha
    have hc : ¬(a = "--crate-type" ∨ a = "--crate-name" ∨ a = "--extern" ∨ a = "-o") := by
      simp only [not_or]; exact ⟨h2, h3, h4, h5⟩
    have hd : ¬(strEndsWith a ".rs" = true ∨ a = "--test" ∨ a = "rustc" ∨
        strStartsWith a "--emit" = true) := by
      simp only [not_or]; exact ⟨h6, h7, h8, h9⟩
    simp only [filterRustcArgsGo]
    rw [if_neg h1]
    show (if a = "--crate-type" ∨ a = "--crate-name" ∨ a = "--extern" ∨ a = "-o" then
        filterRustcArgsGo true rest
      else if strEndsWith a ".rs" = true ∨ a = "--test" ∨ a = "rustc" ∨
          strStartsWith a "--emit" = true then
        filterRustcArgsGo false rest
      else a :: filterRustcArgsGo false rest) = a :: rest
    rw [if_neg hc, if_neg hd]
    exact congrArg (a :: ·) (ih fun b hb => h b (List.mem_cons_of_mem a hb))

theorem mergeGoSpec (args : List String) :
    mergeExternsGo false args = externFlagsSpec args := by
  induction args using Edg.externPairs.induct with
  | case1 v rest ih =>
    simp only [externFlagsSpec] at ih ⊢
    rw [show mergeExternsGo false ("--extern" :: v :: rest) =
        if "--extern" = "--extern" then mergeExternsGo true (v :: rest)
        else mergeExternsGo false (v :: rest) from rfl,
      if_pos rfl,
      show mergeExternsGo true (v :: rest) =
        "--extern" :: v :: mergeExternsGo false rest from rfl,
      show externPairs ("--extern" :: v :: rest) =
        if "--extern" = "--extern" then ("--extern", v) :: externPairs rest
        else externPairs (v :: rest) from rfl,
      if_pos rfl, List.flatMap_cons, ih]
    rfl
  | case2 a v rest h ih =>
    simp only [externFlagsSpec] at ih ⊢
    rw [show mergeExternsGo false (a :: v :: rest) =
        if a = "--extern" then mergeExternsGo true (v :: rest)
        else mergeExternsGo false (v :: rest) from rfl,
      if_neg h,
      show externPairs (a :: v :: rest) =
        if a = "--extern" then ("--extern", v) :: externPairs rest
        else externPairs (v :: rest) from rfl,
      if_neg h]
    exact ih
  | case3 t h =>
    rcases t with _ | ⟨a, _ | ⟨v, rest⟩⟩
    · rfl
    · show mergeExternsGo false [a] = externFlagsSpec [a]
      have hs : externFlagsSpec [a] = [] := rfl
      rw [hs,
        show mergeExternsGo false [a] =
          if a = "--extern" then mergeExternsGo true [] else mergeExternsGo false [] from rfl]
      split <;> rfl
    · exact absurd rfl (h a v rest)

/-! ## The claims -/

/-- C1 (amended): for every invocation in which the external compiler exits
with nonzero status, the macro expansion fails with the compiler's captured
stderr embedded verbatim in the diagnostic, the auxiliary executable is
never invoked and the scratch-directory mutex is released exactly once;
the staged source file, however, is not deleted on this path (no removal
event occurs — deletion happens only on the success path). -/
theorem compile_failure_behavior (cd : Option String) (args : List String)
    (ty body rout rerr : String) (br : Option (Bool × Option String × String)) :
    (runR ⟨cd, args, some ⟨some ty, body⟩, true, some (false, rout, rerr), br⟩).2 =
      .compileErr ("could not compile comptime expr:\n\n" ++ rerr ++ "\n")
  ∧ (∀ e ∈ (runR ⟨cd, args, some ⟨some ty, body⟩, true, some (false, rout, rerr), br⟩).1,
      isBinInvoke e = false)
  ∧ unlockCount (runR ⟨cd, args, some ⟨some ty, body⟩, true, some (false, rout, rerr), br⟩).1 = 1
  ∧ ∀ p, Ev.fileRemove p ∉
      (runR ⟨cd, args, some ⟨some ty, body⟩, true, some (false, rout, rerr), br⟩).1 := by
  refine ⟨by simp [runR], fun e he => ?_, by simp [runR, unlockCount, isUnlock],
    fun p => by simp [runR]⟩
  simp [runR] at he
  rcases he with rfl | rfl | rfl | rfl <;> rfl

theorem compile_failure_behavior_witness :
    (runR ⟨some "/w", [], some ⟨some "i32", "1"⟩, true, some (false, "", "boom"), none⟩).2 =
      .compileErr ("could not compile comptime expr:\n\n" ++ "boom" ++ "\n")
  ∧ Ev.fileRemove (pathJoin (outDirOf (some "/w")) (stagedFileName "1")) ∉
      (runR ⟨some "/w", [], some ⟨some "i32", "1"⟩, true, some (false, "", "boom"), none⟩).1 :=
  ⟨(compile_failure_behavior (some "/w") [] "i32" "1" "" "boom" none).1,
    (compile_failure_behavior (some "/w") [] "i32" "1" "" "boom" none).2.2.2 _⟩

/-- C1, counterexample to the claim as stated: on a concrete compile-failure
invocation the macro fails with the compiler diagnostic, yet the event trace
contains no file-removal at all, so the staged source file is not deleted. -/
theorem compile_failure_no_delete_counterexample :
    (runR ⟨some "/w", [], some ⟨some "i32", "1"⟩, true, some (false, "", "boom"), none⟩).2 =
      .compileErr "could not compile comptime expr:\n\nboom\n"
  ∧ (runR ⟨some "/w", [], some ⟨some "i32", "1"⟩, true,
      some (false, "", "boom"), none⟩).1.filter isRemoveEv = [] := by
  decide

/-- C2 (amended): on the post-acquisition exit paths that surface a
`compile_error!` diagnostic or succeed, the mutex is released exactly once
and the release is the final event; file removals happen only on the success
path; on an input parse failure and on the panicking paths (staged write
failure, spawn failures) the mutex is never released. -/
theorem cleanup_exit_paths (env : MacroEnv) :
    (isDiagOrSuccess (runR env).2 = true →
        unlockCount (runR env).1 = 1
      ∧ (runR env).1.getLast? = some (.unlockEv (pathJoin (outDirOf env.currentDir) "lock")))
  ∧ (∀ p, Ev.fileRemove p ∈ (runR env).1 → isSuccess (runR env).2 = true)
  ∧ ((runR env).2 = .parseErr → unlockCount (runR env).1 = 0)
  ∧ (∀ m, (runR env).2 = .panicked m → unlockCount (runR env).1 = 0) := by
  obtain ⟨cd, args, parsed, wOk, rr, br⟩ := env
  rcases parsed with _ | ⟨_ | ty, body⟩ <;>
    cases wOk <;>
    rcases rr with _ | ⟨ok, rout, rerr⟩ <;>
    (try cases ok) <;>
    rcases br with _ | ⟨bok, bso, berr⟩ <;>
    (try cases bok) <;>
    (try rcases bso with _ | outp) <;>
    (refine ⟨fun h => ?_, fun p hp => ?_, fun h => ?_, fun m h => ?_⟩ <;>
      first
        | (constructor <;> first | (simp [runR, unlockCount, isUnlock]; done) | rfl)
        | (simp [runR, unlockCount, isUnlock]; done)
        | (simp [runR, isSuccess]; done)
        | simp [runR, isDiagOrSuccess] at h
        | simp [runR] at hp)

theorem cleanup_exit_paths_witness :
    isDiagOrSuccess (runR ⟨some "/w", [], some ⟨some "i32", "1"⟩, true,
        some (true, "", ""), some (true, some "42", "")⟩).2 = true
  ∧ unlockCount (runR ⟨some "/w", [], some ⟨some "i32", "1"⟩, true,
        some (true, "", ""), some (true, some "42", "")⟩).1 = 1 :=
  ⟨by decide,
    ((cleanup_exit_paths ⟨some "/w", [], some ⟨some "i32", "1"⟩, true,
      some (true, "", ""), some (true, some "42", "")⟩).1 (by decide)).1⟩

/-- C2, counterexample to the claim as stated: the input-parse-failure exit
path begins after the mutex was acquired (the lock event is in the trace),
yet the mutex is released zero times, not exactly once; and on a concrete
compile-failure path nothing is deleted even though the error is surfaced. -/
theorem cleanup_parse_failure_counterexample :
    runR ⟨some "/w", [], none, true, none, none⟩ =
      ([.lockAcq "/w/target/lock"], .parseErr)
  ∧ unlockCount (runR ⟨some "/w", [], none, true, none, none⟩).1 = 0
  ∧ (runR ⟨some "/w", [], some ⟨some "i32", "1"⟩, true,
      some (false, "", "x"), none⟩).1.filter isRemoveEv = [] := by
  decide

/-- C3: the staged filename is a deterministic function of the body token
text alone — two invocations with the same body stage at the same
content-hash-derived file, even when their declared return types and their
build flags differ; the declared type never enters the hash. -/
theorem staged_name_depends_only_on_body (cd : Option String)
    (args1 args2 : List String) (ty1 ty2 body : String)
    (rr1 rr2 : Option (Bool × String × String))
    (br1 br2 : Option (Bool × Option String × String)) :
    Ev.fileWrite (pathJoin (outDirOf cd) (stagedFileName body)) (synthesize ty1 body)
      ∈ (runR ⟨cd, args1, some ⟨some ty1, body⟩, true, rr1, br1⟩).1
  ∧ Ev.fileWrite (pathJoin (outDirOf cd) (stagedFileName body)) (synthesize ty2 body)
      ∈ (runR ⟨cd, args2, some ⟨some ty2, body⟩, true, rr2, br2⟩).1
  ∧ stagedFileName body = "edg-" ++ toString (defaultHashStr body) ++ ".rs" :=
  ⟨fileWriteMem cd args1 ty1 body rr1 br1, fileWriteMem cd args2 ty2 body rr2 br2, rfl⟩

/-- C4: for every closure input with no declared return type the macro fails
with the `specify return type of closure` diagnostic, no file is ever
written, and the mutex release precedes the surfaced error (the trace is
exactly lock then unlock). -/
theorem missing_return_type_path (cd : Option String) (args : List String) (body : String)
    (wOk : Bool) (rr : Option (Bool × String × String))
    (br : Option (Bool × Option String × String)) :
    runR ⟨cd, args, some ⟨none, body⟩, wOk, rr, br⟩ =
      ([.lockAcq (pathJoin (outDirOf cd) "lock"), .unlockEv (pathJoin (outDirOf cd) "lock")],
        .compileErr "specify return type of closure")
  ∧ ∀ f b, Ev.fileWrite f b ∉ (runR ⟨cd, args, some ⟨none, body⟩, wOk, rr, br⟩).1 := by
  exact ⟨by simp [runR], fun f b => by simp [runR]⟩

theorem missing_return_type_path_witness :
    runR ⟨some "/w", [], some ⟨none, "1"⟩, true, none, none⟩ =
      ([.lockAcq (pathJoin (outDirOf (some "/w")) "lock"),
        .unlockEv (pathJoin (outDirOf (some "/w")) "lock")],
        .compileErr "specify return type of closure")
  ∧ Ev.fileWrite "/w/target/edg-0.rs" "x" ∉
      (runR ⟨some "/w", [], some ⟨none, "1"⟩, true, none, none⟩).1 :=
  ⟨(missing_return_type_path (some "/w") [] "1" true none none).1,
    (missing_return_type_path (some "/w") [] "1" true none none).2 _ _⟩

/-- C5: for every declared type and body text the synthesized auxiliary
source is a complete standalone program (`fn main` wrapping everything) that
binds the body, evaluated as an expression of the declared type, to the
local `res`, serializes it with `serde_json::to_string`, aborts via
`expect("serialization failed")` when serialization fails, and prints
exactly the serialized text `ser` to stdout. -/
theorem synthesized_program_shape (ty code : String) :
    synthesize ty code =
      "fn main() \x7b" ++ ("\n                    " ++ ("let res: " ++ (ty ++ (" = \n" ++
        (code ++ ("\n;" ++ (" // surely nobody will main()\n                    " ++
          ("let ser = serde_json::to_string(&res).expect(\"serialization failed\");" ++
            ("\n                    " ++ ("print!(\"\x7bser\x7d\");" ++ "\n                \x7d")))))))))) := by
  apply String.ext
  simp only [synthesize, String.data_append, List.cons_append, List.nil_append,
    List.append_assoc]

/-- C6: lock acquisition retries exactly when the atomic create-if-absent of
the marker fails with already-exists, returns as soon as creation succeeds,
and aborts fatally on any other creation failure; lock release aborts
fatally when removing the marker fails. -/
theorem lock_retry_spec :
    (∀ rest, lockRun (.alreadyExists :: rest) = lockRun rest)
  ∧ (∀ rest, lockRun (.ok :: rest) = .acquired)
  ∧ (∀ rest, lockRun (.otherErr :: rest) = .fatal)
  ∧ unlockRun true = .done
  ∧ unlockRun false = .fatal :=
  ⟨fun _ => rfl, fun _ => rfl, fun _ => rfl, rfl, rfl⟩

/-- C7 (amended): the argument translator keeps a subsequence of the input
(order preserved, elements unchanged); every kept argument is outside all
the dropped categories — which include, beyond the claim's list, the
external-binding flag `--extern` with its value, literal `rustc` arguments
and bare `-` arguments; each value-consuming flag is dropped together with
its value; and on a list whose tail is free of dropped categories, the
translator drops exactly the leading positional argument and passes every
other flag through unchanged in its original order. -/
theorem filter_rustc_args_behavior (args : List String) (head : String) (rest : List String)
    (f v : String) (rest2 : List String) :
    (filter_rustc_args args).Sublist args
  ∧ (∀ a ∈ filter_rustc_args args, ¬ DroppedArg a)
  ∧ ((f = "--crate-type" ∨ f = "--crate-name" ∨ f = "--extern" ∨ f = "-o") → v ≠ "-" →
      filterRustcArgsGo false (f :: v :: rest2) = filterRustcArgsGo false rest2)
  ∧ (head ≠ "-" → (∀ a ∈ rest, ¬ DroppedArg a) → filter_rustc_args (head :: rest) = rest) := by
  refine ⟨filterGoSublist true args, filterGoNotDropped true args, fun hf hv => ?_, fun h1 h2 => ?_⟩
  · have hfne : f ≠ "-" := by rcases hf with rfl | rfl | rfl | rfl <;> decide
    rw [show filterRustcArgsGo false (f :: v :: rest2) =
        (if f = "-" then filterRustcArgsGo false (v :: rest2)
         else if f = "--crate-type" ∨ f = "--crate-name" ∨ f = "--extern" ∨ f = "-o" then
           filterRustcArgsGo true (v :: rest2)
         else if strEndsWith f ".rs" = true ∨ f = "--test" ∨ f = "rustc" ∨
             strStartsWith f "--emit" = true then
           filterRustcArgsGo false (v :: rest2)
         else f :: filterRustcArgsGo false (v :: rest2)) from rfl,
      if_neg hfne, if_pos hf,
      show filterRustcArgsGo true (v :: rest2) =
        (if v = "-" then filterRustcArgsGo true rest2
         else filterRustcArgsGo false rest2) from rfl,
      if_neg hv]
  · rw [show filter_rustc_args (head :: rest) =
        (if head = "-" then filterRustcArgsGo true rest
         else filterRustcArgsGo false rest) from rfl,
      if_neg h1]
    exact filterGoCleanId rest h2

theorem filter_rustc_args_behavior_witness :
    filter_rustc_args ["wrapper", "-O", "--cfg", "feat"] = ["-O", "--cfg", "feat"] :=
  (filter_rustc_args_behavior [] "wrapper" ["-O", "--cfg", "feat"] "--crate-type" "x" []).2.2.2
    (by decide) (by decide)

/-- C7, counterexample to the claim as stated: `--extern` and its value are
not among the categories the claim says are dropped, so the claim predicts
they pass through — but the translator drops them. -/
theorem filter_rustc_args_counterexample :
    filter_rustc_args ["rustc-driver", "--extern", "serde=libserde.rlib", "-O"] = ["-O"]
  ∧ "--extern" ∈ ["rustc-driver", "--extern", "serde=libserde.rlib", "-O"]
  ∧ "--extern" ∉ filter_rustc_args ["rustc-driver", "--extern", "serde=libserde.rlib", "-O"]
  ∧ "serde=libserde.rlib" ∉
      filter_rustc_args ["rustc-driver", "--extern", "serde=libserde.rlib", "-O"] := by
  decide

/-- C8: the extern extraction emits exactly the `(--extern, value)` pairs
present in the input, verbatim and in order of occurrence, and nothing
else; the assembled auxiliary `rustc` invocation contains that emitted
block, so the auxiliary compilation receives the same external-library
bindings as the host build. -/
theorem merge_externs_spec (args : List String) (outDir file : String) :
    merge_externs args = externFlagsSpec args
  ∧ ∃ pre post, rustcArgsOf args outDir file = pre ++ merge_externs args ++ post := by
  refine ⟨mergeGoSpec args,
    ⟨filter_rustc_args args ++ ["--crate-name", "edg_bin", "--crate-type", "bin", "--out-dir", outDir],
      [file], ?_⟩⟩
  simp [rustcArgsOf, merge_externs, List.append_assoc]

/-- C9: when the auxiliary executable exits successfully but its stdout is
not valid UTF-8, the macro fails with the `comptime expr output was not utf8`
diagnostic — distinct from every compile-failure and every execution-failure
diagnostic — and the mutex is released exactly once. -/
theorem not_utf8_path (cd : Option String) (args : List String)
    (ty body rout rerr berr : String) :
    (runR ⟨cd, args, some ⟨some ty, body⟩, true, some (true, rout, rerr),
        some (true, none, berr)⟩).2 =
      .compileErr "comptime expr output was not utf8"
  ∧ (∀ s, "comptime expr output was not utf8" ≠ "could not compile comptime expr:\n\n" ++ s ++ "\n")
  ∧ (∀ s, "comptime expr output was not utf8" ≠ "could not run comptime expr:\n\n" ++ s ++ "\n")
  ∧ unlockCount (runR ⟨cd, args, some ⟨some ty, body⟩, true, some (true, rout, rerr),
        some (true, none, berr)⟩).1 = 1 :=
  ⟨by simp [runR], neMsgCompile, neMsgRun, by simp [runR, unlockCount, isUnlock]⟩

theorem not_utf8_path_witness :
    (runR ⟨some "/w", [], some ⟨some "i32", "1"⟩, true, some (true, "", ""),
        some (true, none, "")⟩).2 =
      .compileErr "comptime expr output was not utf8"
  ∧ "comptime expr output was not utf8" ≠ "could not run comptime expr:\n\n" ++ "x" ++ "\n" :=
  ⟨(not_utf8_path (some "/w") [] "i32" "1" "" "" "").1,
    (not_utf8_path (some "/w") [] "i32" "1" "" "" "").2.2.1 "x"⟩

/-- C10: the staging directory for the lock marker, the staged source and
the compiled executable is the current working directory joined with
`target`, silently falling back to `/tmp` when the current directory cannot
be determined; every path-bearing event of every invocation lives under that
directory. -/
theorem staging_dir_layout (env : MacroEnv) (p : String) :
    outDirOf (some p) = p ++ "/target"
  ∧ outDirOf none = "/tmp"
  ∧ ∀ e ∈ (runR env).1, ∀ q, evPath e = some q →
      ∃ suffix, q = outDirOf env.currentDir ++ suffix := by
  refine ⟨by apply String.ext; simp [outDirOf, pathJoin, String.data_append], rfl, ?_⟩
  obtain ⟨cd, args, parsed, wOk, rr, br⟩ := env
  rcases parsed with _ | ⟨_ | ty, body⟩ <;>
    cases wOk <;>
    rcases rr with _ | ⟨ok, rout, rerr⟩ <;>
    (try cases ok) <;>
    rcases br with _ | ⟨bok, bso, berr⟩ <;>
    (try cases bok) <;>
    (try rcases bso with _ | outp) <;>
    (intro e he q hq
     simp only [runR, List.cons_append, List.nil_append] at he
     fin_cases he <;>
       simp only [evPath, Option.some.injEq] at hq <;>
       first
         | exact Option.noConfusion hq
         | (subst hq; exact ⟨_, rfl⟩))

theorem staging_dir_layout_witness :
    outDirOf (some "/w") = "/w" ++ "/target"
  ∧ (∃ suffix, "/w/target/lock" = outDirOf (some "/w") ++ suffix) :=
  ⟨(staging_dir_layout ⟨some "/w", [], none, true, none, none⟩ "/w").1,
    (staging_dir_layout ⟨some "/w", [], none, true, none, none⟩ "/w").2.2
      (.lockAcq (pathJoin (outDirOf (some "/w")) "lock")) (by decide)
      "/w/target/lock" (by decide)⟩

end Edg
